import Mathlib

/-!
Verification development for the statistical core of `MACS3/Signal/VariantStat.py`.

The numeric Python/Cython code is shallowly embedded over the real numbers:
Phred qualities are natural numbers, quality arrays are `List ℕ`, floating
point doubles become `ℝ`, `math.log`/`math.exp` become `Real.log`/`Real.exp`,
the C `(int)` cast becomes truncation toward zero on `ℝ`, and the Python
`raise` statements become the `Except.error` constructor.  Loop counters that
walk by one are embedded as structurally recursive functions whose fuel
argument mirrors the loop guard exactly.
-/

namespace VariantStat

noncomputable section

/-- The constant `LN10_tenth` from the source (line 30). -/
def LN10_tenth : ℝ := 0.23025850929940458

/-- Per-read error probability from a Phred score: `e = exp(-q * LN10_tenth)`,
as computed inside `calculate_ln` (lines 463, 467). -/
def phredE (q : ℕ) : ℝ := Real.exp (-((q : ℝ) * LN10_tenth))

/-- The binomial-ratio term of `calculate_ln` (source lines 446-450): if `r`
is outside `[1-max_allowed_r, max_allowed_r]` the source adds
`k*log(max_allowed_r) + (tn-k)*log(1-max_allowed_r)`, otherwise
`k*log(r) + (tn-k)*log(1-r)`. -/
def ratioTerm (tn k : ℕ) (r mar : ℝ) : ℝ :=
  if r > mar ∨ r < 1 - mar then
    (k : ℝ) * Real.log mar + ((tn : ℝ) - (k : ℝ)) * Real.log (1 - mar)
  else
    (k : ℝ) * Real.log r + ((tn : ℝ) - (k : ℝ)) * Real.log (1 - r)

/-- The combinatorial term `log C(tn, k)` of `calculate_ln` (source lines
453-460), computed as the source does: zero at `k ∈ {0, tn}`, otherwise a sum
of `log((tn-i)/(k-i))` over `i < k` when `k ≤ tn/2` (integer division), and
the symmetric sum over `i < tn-k` otherwise. -/
def combTerm (tn k : ℕ) : ℝ :=
  if k = 0 ∨ k = tn then 0
  else if k ≤ tn / 2 then
    ∑ i ∈ Finset.range k, Real.log (((tn : ℝ) - (i : ℝ)) / ((k : ℝ) - (i : ℝ)))
  else
    ∑ i ∈ Finset.range (tn - k),
      Real.log (((tn : ℝ) - (i : ℝ)) / (((tn : ℝ) - (k : ℝ)) - (i : ℝ)))

/-- Error-mixture term for one top1-supporting read (source lines 462-464). -/
def errTop1 (tn k q : ℕ) : ℝ :=
  Real.log ((1 - phredE q) * ((k : ℝ) / (tn : ℝ)) + phredE q * (1 - (k : ℝ) / (tn : ℝ)))

/-- Error-mixture term for one top2-supporting read (source lines 466-468). -/
def errTop2 (tn k q : ℕ) : ℝ :=
  Real.log ((1 - phredE q) * (1 - (k : ℝ) / (tn : ℝ)) + phredE q * ((k : ℝ) / (tn : ℝ)))

/-- The log-likelihood evaluator `calculate_ln` (source lines 426-470). -/
def calculate_ln (m n tn : ℕ) (me ne : List ℕ) (r : ℝ) (k : ℕ) (mar : ℝ) : ℝ :=
  ratioTerm tn k r mar + combTerm tn k
    + ∑ i ∈ Finset.range m, errTop1 tn k (me.getD i 0)
    + ∑ i ∈ Finset.range n, errTop2 tn k (ne.getD i 0)

/-- Likelihood of candidate count `k` as evaluated by `GreedyMaxFunctionNoAS`:
`calculate_ln` at the fixed background ratio `bg_r = 0.5` with the default
`max_allowed_r = 0.99` (the source call sites omit that argument). -/
def LnoAS (m n tn : ℕ) (me ne : List ℕ) (k : ℕ) : ℝ :=
  calculate_ln m n tn me ne 0.5 k 0.99

/-- Likelihood of candidate count `k` as evaluated by `GreedyMaxFunctionAS`:
`calculate_ln` at the re-derived ratio `r = k/tn`. -/
def LAS (m n tn : ℕ) (me ne : List ℕ) (mar : ℝ) (k : ℕ) : ℝ :=
  calculate_ln m n tn me ne ((k : ℝ) / (tn : ℝ)) k mar

/-- The downward hill-climb loop shared by both greedy searches (source lines
267-278 and 384-391).  One recursive step is one loop iteration: evaluate the
likelihood `L (kold - 1)`, stop if it fails to improve on `dold` by more than
`1e-8`, otherwise move `kold` down by exactly one.  The fuel argument mirrors
the loop guard: the NoAS loop (`while kold >= 1`) is entered with
`fuel = kold`, the AS loop (`while kold > 1`) with `fuel = kold - 1`. -/
def walkD (L : ℕ → ℝ) : ℕ → ℕ → ℝ → ℝ × ℕ
  | 0, kold, dold => (dold, kold)
  | fuel + 1, kold, dold =>
    if L (kold - 1) - 1e-8 < dold then (dold, kold)
    else walkD L fuel (kold - 1) (L (kold - 1))

/-- The upward hill-climb loop shared by both greedy searches (source lines
291-307 and 400-411).  The NoAS loop (`while kold <= tn - 1`) is entered with
`fuel = tn - kold`, the AS loop (`while kold < tn - 1`) with
`fuel = tn - 1 - kold`. -/
def walkU (L : ℕ → ℝ) : ℕ → ℕ → ℝ → ℝ × ℕ
  | 0, kold, dold => (dold, kold)
  | fuel + 1, kold, dold =>
    if L (kold + 1) - 1e-8 < dold then (dold, kold)
    else walkU L fuel (kold + 1) (L (kold + 1))

/-- Number of loop-body executions performed by the downward walk. -/
def walkDSteps (L : ℕ → ℝ) : ℕ → ℕ → ℝ → ℕ
  | 0, _, _ => 0
  | fuel + 1, kold, dold =>
    if L (kold - 1) - 1e-8 < dold then 1
    else walkDSteps L fuel (kold - 1) (L (kold - 1)) + 1

/-- Number of loop-body executions performed by the upward walk. -/
def walkUSteps (L : ℕ → ℝ) : ℕ → ℕ → ℝ → ℕ
  | 0, _, _ => 0
  | fuel + 1, kold, dold =>
    if L (kold + 1) - 1e-8 < dold then 1
    else walkUSteps L fuel (kold + 1) (L (kold + 1)) + 1

/-- `GreedyMaxFunctionNoAS` (source lines 324-420): hill climb on
`calculate_ln` with `r` fixed at `0.5`, returning `(lnL, k)`. -/
def GreedyMaxFunctionNoAS (m n tn : ℕ) (me ne : List ℕ) : Except String (ℝ × ℕ) :=
  if tn = 1 then
    if LnoAS m n tn me ne 0 > LnoAS m n tn me ne 1 then .ok (LnoAS m n tn me ne 0, 0)
    else .ok (LnoAS m n tn me ne 1, 1)
  else if m = 0 then .ok (LnoAS m n tn me ne m, m)
  else if m = tn then .ok (LnoAS m n tn me ne m, m)
  else
    if LnoAS m n tn me ne m > LnoAS m n tn me ne (m - 1) - 1e-8 ∧
        LnoAS m n tn me ne m > LnoAS m n tn me ne (m + 1) - 1e-8 then
      .ok (LnoAS m n tn me ne m, m)
    else if LnoAS m n tn me ne (m - 1) > LnoAS m n tn me ne m then
      .ok (walkD (LnoAS m n tn me ne) (m - 1) (m - 1) (LnoAS m n tn me ne (m - 1)))
    else if LnoAS m n tn me ne (m + 1) > LnoAS m n tn me ne m then
      .ok (walkU (LnoAS m n tn me ne) (tn - (m + 1)) (m + 1) (LnoAS m n tn me ne (m + 1)))
    else .error "error in GreedyMaxFunctionNoAS"

/-- `GreedyMaxFunctionAS` (source lines 203-318): hill climb on
`calculate_ln` with `r = k/tn` re-derived at every candidate, returning
`(lnL, k, alleleratio)`.  The initial `assert m + n == tn` is embedded as an
`AssertionError`; the `tn == 1` branch calls `calculate_ln` without the
`max_allowed_ar` argument, hence with the default `0.99`, exactly as the
source does. -/
def GreedyMaxFunctionAS (m n tn : ℕ) (me ne : List ℕ) (mar : ℝ) :
    Except String (ℝ × ℕ × ℝ) :=
  if m + n ≠ tn then .error "AssertionError"
  else if tn = 1 then
    if calculate_ln m n tn me ne 0 0 0.99 > calculate_ln m n tn me ne 1 1 0.99 then
      .ok (calculate_ln m n tn me ne 0 0 0.99, 0, 0)
    else .ok (calculate_ln m n tn me ne 1 1 0.99, 1, 1)
  else if m = 0 then .ok (calculate_ln m n tn me ne 0 m mar, m, 1 - mar)
  else if m = tn then .ok (calculate_ln m n tn me ne 1 m mar, m, mar)
  else
    if LAS m n tn me ne mar m > LAS m n tn me ne mar (m - 1) - 1e-8 ∧
        LAS m n tn me ne mar m > LAS m n tn me ne mar (m + 1) - 1e-8 then
      .ok (LAS m n tn me ne mar m, m, (m : ℝ) / (tn : ℝ))
    else if LAS m n tn me ne mar (m - 1) > LAS m n tn me ne mar m then
      let res := walkD (LAS m n tn me ne mar) (m - 2) (m - 1) (LAS m n tn me ne mar (m - 1))
      .ok (res.1, res.2, (res.2 : ℝ) / (tn : ℝ))
    else if LAS m n tn me ne mar (m + 1) > LAS m n tn me ne mar m then
      let res := walkU (LAS m n tn me ne mar) (tn - 1 - (m + 1)) (m + 1)
        (LAS m n tn me ne mar (m + 1))
      .ok (res.1, res.2, (res.2 : ℝ) / (tn : ℝ))
    else .error "error in GreedyMaxFunctionAS"

/-- `CalModel_Heter_noAS` (source lines 67-125): fit treatment and control by
`GreedyMaxFunctionNoAS`, returning `(lnL, BIC)`; raises when the treatment
group is empty, skips an empty control group, and adds the penalty
`log(tn_T) + log(tn_C)` with the control term dropped when `tn_C == 0`. -/
def CalModel_Heter_noAS (top1_bq_T top1_bq_C top2_bq_T top2_bq_C : List ℕ) :
    Except String (ℝ × ℝ) :=
  if top1_bq_T.length + top2_bq_T.length = 0 then
    .error "Total number of treatment reads is 0!"
  else
    match GreedyMaxFunctionNoAS top1_bq_T.length top2_bq_T.length
        (top1_bq_T.length + top2_bq_T.length) top1_bq_T top2_bq_T with
    | .error e => .error e
    | .ok (lnL_T, _) =>
      if top1_bq_C.length + top2_bq_C.length = 0 then
        .ok (lnL_T, -2 * lnL_T + Real.log ((top1_bq_T.length + top2_bq_T.length : ℕ) : ℝ))
      else
        match GreedyMaxFunctionNoAS top1_bq_C.length top2_bq_C.length
            (top1_bq_C.length + top2_bq_C.length) top1_bq_C top2_bq_C with
        | .error e => .error e
        | .ok (lnL_C, _) =>
          .ok (lnL_T + lnL_C,
            -2 * lnL_T + -2 * lnL_C
              + (Real.log ((top1_bq_T.length + top2_bq_T.length : ℕ) : ℝ)
                + Real.log ((top1_bq_C.length + top2_bq_C.length : ℕ) : ℝ)))

/-- `CalModel_Heter_AS` (source lines 131-197): treatment fit by
`GreedyMaxFunctionAS`, control (assumed unbiased) by `GreedyMaxFunctionNoAS`;
penalty `2*log(tn_T) + log(tn_C)` with the control term dropped when
`tn_C == 0`. -/
def CalModel_Heter_AS (top1_bq_T top1_bq_C top2_bq_T top2_bq_C : List ℕ) (mar : ℝ) :
    Except String (ℝ × ℝ) :=
  if top1_bq_T.length + top2_bq_T.length = 0 then
    .error "Total number of treatment reads is 0!"
  else
    match GreedyMaxFunctionAS top1_bq_T.length top2_bq_T.length
        (top1_bq_T.length + top2_bq_T.length) top1_bq_T top2_bq_T mar with
    | .error e => .error e
    | .ok (lnL_T, _, _) =>
      if top1_bq_C.length + top2_bq_C.length = 0 then
        .ok (lnL_T, -2 * lnL_T + 2 * Real.log ((top1_bq_T.length + top2_bq_T.length : ℕ) : ℝ))
      else
        match GreedyMaxFunctionNoAS top1_bq_C.length top2_bq_C.length
            (top1_bq_C.length + top2_bq_C.length) top1_bq_C top2_bq_C with
        | .error e => .error e
        | .ok (lnL_C, _) =>
          .ok (lnL_T + lnL_C,
            -2 * lnL_T + -2 * lnL_C
              + (2 * Real.log ((top1_bq_T.length + top2_bq_T.length : ℕ) : ℝ)
                + Real.log ((top1_bq_C.length + top2_bq_C.length : ℕ) : ℝ)))

/-- Truncation toward zero, the semantics of the C `(int)` cast applied to a
double in the score converters. -/
def ctrunc (x : ℝ) : ℤ := if 0 ≤ x then ⌊x⌋ else ⌈x⌉

/-- The clamp `if L > 1: L = 1` applied to the likelihood ratios in the score
converters (source lines 493-496, 528-529). -/
def capAtOne (x : ℝ) : ℝ := if x > 1 then 1 else x

/-- The floor `if L < 1e-110: L = 1e-110` applied after the cap (source lines
498-501, 532-533). -/
def floorTiny (x : ℝ) : ℝ := if x < 1e-110 then 1e-110 else x

/-- `calculate_GQ` (source lines 473-510): likelihood ratios relative to model
1, clamped to `≤ 1` and floored at `1e-110`, then a Phred-style transform of
the probability mass not on model 1, truncated to an int; `255` when the mass
ratio is not above `1e-110`. -/
def calculate_GQ (lnL1 lnL2 lnL3 : ℝ) : ℤ :=
  let L2 := floorTiny (capAtOne (Real.exp (lnL2 - lnL1)))
  let L3 := floorTiny (capAtOne (Real.exp (lnL3 - lnL1)))
  let s := 1 + L2 + L3
  let tmp := (L2 + L3) / s
  if tmp > 1e-110 then ctrunc (-4.34294 * Real.log tmp) else 255

/-- `calculate_GQ_heterASsig` (source lines 513-541): the two-model variant of
the same transform. -/
def calculate_GQ_heterASsig (lnL1 lnL2 : ℝ) : ℤ :=
  let L2 := floorTiny (capAtOne (Real.exp (lnL2 - lnL1)))
  let s := 1 + L2
  let tmp := L2 / s
  if tmp > 1e-110 then ctrunc (-4.34294 * Real.log tmp) else 255

/-- Local maximality of `k` for a likelihood function over the integer range
`[0, tn]`, with the source's `1e-8` tolerance: no in-range neighbor of `k`
exceeds `L k` by more than `1e-8`. -/
def localMaxNoAS (L : ℕ → ℝ) (tn k : ℕ) : Prop :=
  (1 ≤ k → L (k - 1) ≤ L k + 1e-8) ∧ (k + 1 ≤ tn → L (k + 1) ≤ L k + 1e-8)

/-- Local maximality of `k` restricted to neighbors inside the open range
`[1, tn-1]` actually protected by the AS loop guards: the neighbors `0` and
`tn` are exempt. -/
def localMaxInner (L : ℕ → ℝ) (tn k : ℕ) : Prop :=
  (2 ≤ k → L (k - 1) ≤ L k + 1e-8) ∧ (k + 2 ≤ tn → L (k + 1) ≤ L k + 1e-8)

end

/-! ### General numeric helpers -/

lemma eps_pos : (0 : ℝ) < 1e-8 := by norm_num

lemma one_sub_inv_le_log {x : ℝ} (hx : 0 < x) : 1 - x⁻¹ ≤ Real.log x := by
  have h := Real.log_le_sub_one_of_pos (inv_pos.mpr hx)
  rw [Real.log_inv] at h
  linarith

lemma inv_le_inv_of_le_left {a b : ℝ} (ha : 0 < a) (hab : a ≤ b) : b⁻¹ ≤ a⁻¹ := by
  rw [inv_eq_one_div, inv_eq_one_div]
  exact one_div_le_one_div_of_le ha hab

lemma exp_neg_le_inv_one_add {y : ℝ} (hy : 0 ≤ y) : Real.exp (-y) ≤ (1 + y)⁻¹ := by
  have h1 : y + 1 ≤ Real.exp y := Real.add_one_le_exp y
  rw [Real.exp_neg]
  exact inv_le_inv_of_le_left (by linarith) (by linarith)

lemma LN10_tenth_pos : (0 : ℝ) < LN10_tenth := by norm_num [LN10_tenth]

lemma phredE_pos (q : ℕ) : 0 < phredE q := Real.exp_pos _

lemma phredE_le_one (q : ℕ) : phredE q ≤ 1 := by
  have hc : (0 : ℝ) ≤ (q : ℝ) * LN10_tenth :=
    mul_nonneg (Nat.cast_nonneg q) (le_of_lt LN10_tenth_pos)
  calc phredE q = Real.exp (-((q : ℝ) * LN10_tenth)) := rfl
    _ ≤ Real.exp 0 := Real.exp_le_exp.mpr (by linarith)
    _ = 1 := Real.exp_zero

lemma phredE_lt_one {q : ℕ} (hq : 1 ≤ q) : phredE q < 1 := by
  have hc : (0 : ℝ) < (q : ℝ) * LN10_tenth := by
    have : (1 : ℝ) ≤ (q : ℝ) := by exact_mod_cast hq
    nlinarith [LN10_tenth_pos]
  calc phredE q = Real.exp (-((q : ℝ) * LN10_tenth)) := rfl
    _ < Real.exp 0 := Real.exp_lt_exp.mpr (by linarith)
    _ = 1 := Real.exp_zero

/-! ### Hill-climb loop invariants -/

lemma walkD_spec (L : ℕ → ℝ) :
    ∀ (fuel kold : ℕ) (dold : ℝ), fuel ≤ kold → dold = L kold →
      L (kold + 1) ≤ dold + 1e-8 →
      (walkD L fuel kold dold).1 = L (walkD L fuel kold dold).2 ∧
      (walkD L fuel kold dold).2 ≤ kold ∧
      kold - fuel ≤ (walkD L fuel kold dold).2 ∧
      L ((walkD L fuel kold dold).2 + 1) ≤ (walkD L fuel kold dold).1 + 1e-8 ∧
      (kold - fuel < (walkD L fuel kold dold).2 →
        L ((walkD L fuel kold dold).2 - 1) ≤ (walkD L fuel kold dold).1 + 1e-8) := by
  intro fuel
  induction fuel with
  | zero =>
    intro kold dold _ hd hr
    simp only [walkD]
    exact ⟨hd, le_refl _, by omega, hr, by intro h; omega⟩
  | succ f ih =>
    intro kold dold hk hd hr
    simp only [walkD]
    split_ifs with hbr
    · exact ⟨hd, le_refl _, by omega, hr, fun _ => by linarith⟩
    · push_neg at hbr
      have hk1 : 1 ≤ kold := by omega
      have ihh := ih (kold - 1) (L (kold - 1)) (by omega) rfl (by
        have hksub : kold - 1 + 1 = kold := by omega
        rw [hksub, ← hd]; linarith)
      obtain ⟨c1, c2, c3, c4, c5⟩ := ihh
      exact ⟨c1, by omega, by omega, c4, fun h => c5 (by omega)⟩

lemma walkU_spec (L : ℕ → ℝ) :
    ∀ (fuel kold : ℕ) (dold : ℝ), 1 ≤ kold → dold = L kold →
      L (kold - 1) ≤ dold + 1e-8 →
      (walkU L fuel kold dold).1 = L (walkU L fuel kold dold).2 ∧
      kold ≤ (walkU L fuel kold dold).2 ∧
      (walkU L fuel kold dold).2 ≤ kold + fuel ∧
      L ((walkU L fuel kold dold).2 - 1) ≤ (walkU L fuel kold dold).1 + 1e-8 ∧
      ((walkU L fuel kold dold).2 < kold + fuel →
        L ((walkU L fuel kold dold).2 + 1) ≤ (walkU L fuel kold dold).1 + 1e-8) := by
  intro fuel
  induction fuel with
  | zero =>
    intro kold dold _ hd hl
    simp only [walkU]
    exact ⟨hd, le_refl _, by omega, hl, by intro h; omega⟩
  | succ f ih =>
    intro kold dold hk hd hl
    simp only [walkU]
    split_ifs with hbr
    · exact ⟨hd, le_refl _, by omega, hl, fun _ => by linarith⟩
    · push_neg at hbr
      have ihh := ih (kold + 1) (L (kold + 1)) (by omega) rfl (by
        have hksub : kold + 1 - 1 = kold := by omega
        rw [hksub, ← hd]; linarith)
      obtain ⟨c1, c2, c3, c4, c5⟩ := ihh
      exact ⟨c1, by omega, by omega, c4, fun h => c5 (by omega)⟩

lemma walkDSteps_le (L : ℕ → ℝ) :
    ∀ (fuel kold : ℕ) (dold : ℝ), walkDSteps L fuel kold dold ≤ fuel := by
  intro fuel
  induction fuel with
  | zero => intro k d; simp [walkDSteps]
  | succ f ih =>
    intro k d
    simp only [walkDSteps]
    split_ifs
    · omega
    · have := ih (k - 1) (L (k - 1)); omega

lemma walkUSteps_le (L : ℕ → ℝ) :
    ∀ (fuel kold : ℕ) (dold : ℝ), walkUSteps L fuel kold dold ≤ fuel := by
  intro fuel
  induction fuel with
  | zero => intro k d; simp [walkUSteps]
  | succ f ih =>
    intro k d
    simp only [walkUSteps]
    split_ifs
    · omega
    · have := ih (k + 1) (L (k + 1)); omega

lemma walkD_k_bounds (L : ℕ → ℝ) :
    ∀ (fuel kold : ℕ) (dold : ℝ),
      kold - fuel ≤ (walkD L fuel kold dold).2 ∧ (walkD L fuel kold dold).2 ≤ kold := by
  intro fuel
  induction fuel with
  | zero => intro k d; simp [walkD]
  | succ f ih =>
    intro k d
    simp only [walkD]
    split_ifs
    · omega
    · have := ih (k - 1) (L (k - 1)); omega

lemma walkU_k_bounds (L : ℕ → ℝ) :
    ∀ (fuel kold : ℕ) (dold : ℝ),
      kold ≤ (walkU L fuel kold dold).2 ∧ (walkU L fuel kold dold).2 ≤ kold + fuel := by
  intro fuel
  induction fuel with
  | zero => intro k d; simp [walkU]
  | succ f ih =>
    intro k d
    simp only [walkU]
    split_ifs
    · omega
    · have := ih (k + 1) (L (k + 1)); omega

/-! ### The greedy searches never take the final `raise` branch -/

lemma greedy_trichotomy (a b c : ℝ) :
    (a > b - 1e-8 ∧ a > c - 1e-8) ∨ b > a ∨ c > a := by
  rcases le_or_lt b a with hb | hb
  · rcases le_or_lt c a with hc | hc
    · left; constructor <;> linarith [eps_pos]
    · right; right; exact hc
  · right; left; exact hb

lemma greedyNoAS_ok (m n tn : ℕ) (me ne : List ℕ) :
    ∃ v, GreedyMaxFunctionNoAS m n tn me ne = .ok v := by
  unfold GreedyMaxFunctionNoAS
  split_ifs with h1 h2 h3 h4 h5 h6 h7 <;> try exact ⟨_, rfl⟩
  exfalso
  push_neg at h5 h6 h7
  have hA : LnoAS m n tn me ne m > LnoAS m n tn me ne (m - 1) - 1e-8 := by
    linarith [eps_pos]
  have hB := h5 hA
  linarith

lemma greedyAS_ok (m n tn : ℕ) (me ne : List ℕ) (mar : ℝ) (he : m + n = tn) :
    ∃ w, GreedyMaxFunctionAS m n tn me ne mar = .ok w := by
  unfold GreedyMaxFunctionAS
  split_ifs with h0 h1 h2 h3 h4 h5 h6 h7 <;> try exact ⟨_, rfl⟩
  · exact absurd he h0
  · exfalso
    push_neg at h5 h6 h7
    have hA : LAS m n tn me ne mar m > LAS m n tn me ne mar (m - 1) - 1e-8 := by
      linarith [eps_pos]
    have hB := h5 hA
    linarith

/-! ### Claims C9 and C10: the raise branch is unreachable, the walks terminate -/

/-- C9: in both `GreedyMaxFunctionNoAS` and `GreedyMaxFunctionAS` the final
else branch raising the internal-consistency exception is unreachable over the
reals: whenever the center test fails, `d1l > d0` or `d1r > d0` holds by
trichotomy, so every call (with the AS assertion `m + n = tn` satisfied)
returns an `ok` value. -/
theorem C9_raise_unreachable (m n tn : ℕ) (me ne : List ℕ) (mar : ℝ) :
    (∃ v, GreedyMaxFunctionNoAS m n tn me ne = .ok v) ∧
    (m + n = tn → ∃ w, GreedyMaxFunctionAS m n tn me ne mar = .ok w) :=
  ⟨greedyNoAS_ok m n tn me ne, fun he => greedyAS_ok m n tn me ne mar he⟩

/-- Witness for C9 at a concrete input. -/
theorem C9_raise_unreachable_witness :
    (1 + 1 = 2) ∧
    (∃ v, GreedyMaxFunctionNoAS 1 1 2 [3] [4] = .ok v) ∧
    (∃ w, GreedyMaxFunctionAS 1 1 2 [3] [4] 0.99 = .ok w) :=
  ⟨rfl, (C9_raise_unreachable 1 1 2 [3] [4] 0.99).1,
    (C9_raise_unreachable 1 1 2 [3] [4] 0.99).2 rfl⟩

/-- C10: both greedy searches terminate with a value on every input with
`m + n = tn ≥ 1`; each hill-climb loop moves its counter by exactly one per
iteration, and with any fuel bounded by `tn` (the searches use
`m-1`, `tn-m`, `m-2` and `tn-m-2`) a walk performs at most `tn` iterations,
its downward counter never drops below `kold - fuel` and its upward counter
never exceeds `kold + fuel`. -/
theorem C10_walks_terminate (m n tn : ℕ) (me ne : List ℕ) (mar : ℝ)
    (h1 : 1 ≤ tn) (he : m + n = tn) :
    (∃ v, GreedyMaxFunctionNoAS m n tn me ne = .ok v) ∧
    (∃ w, GreedyMaxFunctionAS m n tn me ne mar = .ok w) ∧
    (∀ (L : ℕ → ℝ) (fuel kold : ℕ) (dold : ℝ), fuel ≤ tn →
      walkDSteps L fuel kold dold ≤ tn ∧ walkUSteps L fuel kold dold ≤ tn ∧
      kold - fuel ≤ (walkD L fuel kold dold).2 ∧ (walkD L fuel kold dold).2 ≤ kold ∧
      kold ≤ (walkU L fuel kold dold).2 ∧ (walkU L fuel kold dold).2 ≤ kold + fuel) := by
  refine ⟨greedyNoAS_ok m n tn me ne, greedyAS_ok m n tn me ne mar he, ?_⟩
  intro L fuel kold dold hf
  have d1 := walkDSteps_le L fuel kold dold
  have d2 := walkUSteps_le L fuel kold dold
  have d3 := walkD_k_bounds L fuel kold dold
  have d4 := walkU_k_bounds L fuel kold dold
  exact ⟨by omega, by omega, d3.1, d3.2, d4.1, d4.2⟩

/-- Witness for C10 at a concrete input. -/
theorem C10_walks_terminate_witness :
    (1 ≤ 2 ∧ 1 + 1 = 2) ∧
    ((∃ v, GreedyMaxFunctionNoAS 1 1 2 [3] [4] = .ok v) ∧
      (∃ w, GreedyMaxFunctionAS 1 1 2 [3] [4] 0.99 = .ok w) ∧
      (∀ (L : ℕ → ℝ) (fuel kold : ℕ) (dold : ℝ), fuel ≤ 2 →
        walkDSteps L fuel kold dold ≤ 2 ∧ walkUSteps L fuel kold dold ≤ 2 ∧
        kold - fuel ≤ (walkD L fuel kold dold).2 ∧ (walkD L fuel kold dold).2 ≤ kold ∧
        kold ≤ (walkU L fuel kold dold).2 ∧ (walkU L fuel kold dold).2 ≤ kold + fuel)) :=
  ⟨⟨by omega, rfl⟩, C10_walks_terminate 1 1 2 [3] [4] 0.99 (by omega) rfl⟩

/-! ### Claims C5 and C6: model evaluators -/

/-- C5: both heterozygous model evaluators raise exactly when the treatment
group is empty; an empty control group is no error and contributes neither a
likelihood term nor a penalty term to the result. -/
theorem C5_treatment_required (t1 c1 t2 c2 : List ℕ) (mar : ℝ) :
    ((∃ e, CalModel_Heter_noAS t1 c1 t2 c2 = .error e) ↔ t1.length + t2.length = 0) ∧
    ((∃ e, CalModel_Heter_AS t1 c1 t2 c2 mar = .error e) ↔ t1.length + t2.length = 0) ∧
    (c1.length + c2.length = 0 → 0 < t1.length + t2.length →
      (∃ lT kT,
        GreedyMaxFunctionNoAS t1.length t2.length (t1.length + t2.length) t1 t2 =
          .ok (lT, kT) ∧
        CalModel_Heter_noAS t1 c1 t2 c2 =
          .ok (lT, -2 * lT + Real.log ((t1.length + t2.length : ℕ) : ℝ))) ∧
      (∃ lT kT rT,
        GreedyMaxFunctionAS t1.length t2.length (t1.length + t2.length) t1 t2 mar =
          .ok (lT, kT, rT) ∧
        CalModel_Heter_AS t1 c1 t2 c2 mar =
          .ok (lT, -2 * lT + 2 * Real.log ((t1.length + t2.length : ℕ) : ℝ)))) := by
  by_cases hT : t1.length + t2.length = 0
  · have e1 : CalModel_Heter_noAS t1 c1 t2 c2 = .error "Total number of treatment reads is 0!" := by
      unfold CalModel_Heter_noAS; rw [if_pos hT]
    have e2 : CalModel_Heter_AS t1 c1 t2 c2 mar = .error "Total number of treatment reads is 0!" := by
      unfold CalModel_Heter_AS; rw [if_pos hT]
    exact ⟨⟨fun _ => hT, fun _ => ⟨_, e1⟩⟩, ⟨fun _ => hT, fun _ => ⟨_, e2⟩⟩,
      fun _ hpos => absurd hT (by omega)⟩
  · obtain ⟨⟨lT, kT⟩, hok⟩ :=
      greedyNoAS_ok t1.length t2.length (t1.length + t2.length) t1 t2
    obtain ⟨⟨lTA, kTA, rTA⟩, hokA⟩ :=
      greedyAS_ok t1.length t2.length (t1.length + t2.length) t1 t2 mar rfl
    refine ⟨?_, ?_, ?_⟩
    · constructor
      · intro ⟨e, he⟩
        exfalso
        by_cases hC : c1.length + c2.length = 0
        · rw [show CalModel_Heter_noAS t1 c1 t2 c2 =
              .ok (lT, -2 * lT + Real.log ((t1.length + t2.length : ℕ) : ℝ)) from by
            unfold CalModel_Heter_noAS; rw [if_neg hT, hok]; dsimp only; rw [if_pos hC]] at he
          exact Except.noConfusion he
        · obtain ⟨⟨lC, kC⟩, hokC⟩ :=
            greedyNoAS_ok c1.length c2.length (c1.length + c2.length) c1 c2
          rw [show CalModel_Heter_noAS t1 c1 t2 c2 =
              .ok (lT + lC,
                -2 * lT + -2 * lC
                  + (Real.log ((t1.length + t2.length : ℕ) : ℝ)
                    + Real.log ((c1.length + c2.length : ℕ) : ℝ))) from by
            unfold CalModel_Heter_noAS
            rw [if_neg hT, hok]; dsimp only; rw [if_neg hC, hokC]] at he
          exact Except.noConfusion he
      · intro h; exact absurd h hT
    · constructor
      · intro ⟨e, he⟩
        exfalso
        by_cases hC : c1.length + c2.length = 0
        · rw [show CalModel_Heter_AS t1 c1 t2 c2 mar =
              .ok (lTA, -2 * lTA + 2 * Real.log ((t1.length + t2.length : ℕ) : ℝ)) from by
            unfold CalModel_Heter_AS; rw [if_neg hT, hokA]; dsimp only; rw [if_pos hC]] at he
          exact Except.noConfusion he
        · obtain ⟨⟨lC, kC⟩, hokC⟩ :=
            greedyNoAS_ok c1.length c2.length (c1.length + c2.length) c1 c2
          rw [show CalModel_Heter_AS t1 c1 t2 c2 mar =
              .ok (lTA + lC,
                -2 * lTA + -2 * lC
                  + (2 * Real.log ((t1.length + t2.length : ℕ) : ℝ)
                    + Real.log ((c1.length + c2.length : ℕ) : ℝ))) from by
            unfold CalModel_Heter_AS
            rw [if_neg hT, hokA]; dsimp only; rw [if_neg hC, hokC]] at he
          exact Except.noConfusion he
      · intro h; exact absurd h hT
    · intro hC _
      refine ⟨⟨lT, kT, hok, ?_⟩, ⟨lTA, kTA, rTA, hokA, ?_⟩⟩
      · unfold CalModel_Heter_noAS; rw [if_neg hT, hok]; dsimp only; rw [if_pos hC]
      · unfold CalModel_Heter_AS; rw [if_neg hT, hokA]; dsimp only; rw [if_pos hC]

/-- Witness for C5 at a concrete input (nonempty treatment, empty control). -/
theorem C5_treatment_required_witness :
    (List.length ([] : List ℕ) + List.length ([] : List ℕ) = 0 ∧
      0 < List.length [3] + List.length ([] : List ℕ)) ∧
    ((∃ lT kT,
        GreedyMaxFunctionNoAS (List.length [3]) (List.length ([] : List ℕ))
          (List.length [3] + List.length ([] : List ℕ)) [3] [] = .ok (lT, kT) ∧
        CalModel_Heter_noAS [3] [] [] [] =
          .ok (lT, -2 * lT + Real.log ((List.length [3] + List.length ([] : List ℕ) : ℕ) : ℝ))) ∧
      (∃ lT kT rT,
        GreedyMaxFunctionAS (List.length [3]) (List.length ([] : List ℕ))
          (List.length [3] + List.length ([] : List ℕ)) [3] [] 0.99 = .ok (lT, kT, rT) ∧
        CalModel_Heter_AS [3] [] [] [] 0.99 =
          .ok (lT, -2 * lT + 2 * Real.log ((List.length [3] + List.length ([] : List ℕ) : ℕ) : ℝ)))) :=
  ⟨⟨rfl, by decide⟩, (C5_treatment_required [3] [] [] [] 0.99).2.2 rfl (by decide)⟩

/-- C6: with a nonempty treatment group, `CalModel_Heter_noAS` returns
`BIC = -2(lnL_T + lnL_C) + log tn_T + log tn_C` and `CalModel_Heter_AS`
returns `BIC = -2(lnL_T + lnL_C) + 2 log tn_T + log tn_C`, where the `lnL`
values are those returned by the greedy searches; when the control group is
empty both the `lnL_C` contribution and the `log tn_C` penalty are dropped. -/
theorem C6_BIC_formulas (t1 c1 t2 c2 : List ℕ) (mar : ℝ)
    (hT : 1 ≤ t1.length + t2.length) :
    ∃ lT kT lTA kTA rA,
      GreedyMaxFunctionNoAS t1.length t2.length (t1.length + t2.length) t1 t2 =
        .ok (lT, kT) ∧
      GreedyMaxFunctionAS t1.length t2.length (t1.length + t2.length) t1 t2 mar =
        .ok (lTA, kTA, rA) ∧
      ((c1.length + c2.length = 0 ∧
        CalModel_Heter_noAS t1 c1 t2 c2 =
          .ok (lT, -2 * lT + Real.log ((t1.length + t2.length : ℕ) : ℝ)) ∧
        CalModel_Heter_AS t1 c1 t2 c2 mar =
          .ok (lTA, -2 * lTA + 2 * Real.log ((t1.length + t2.length : ℕ) : ℝ))) ∨
      (∃ lC kC, 1 ≤ c1.length + c2.length ∧
        GreedyMaxFunctionNoAS c1.length c2.length (c1.length + c2.length) c1 c2 =
          .ok (lC, kC) ∧
        CalModel_Heter_noAS t1 c1 t2 c2 =
          .ok (lT + lC,
            -2 * (lT + lC)
              + (Real.log ((t1.length + t2.length : ℕ) : ℝ)
                + Real.log ((c1.length + c2.length : ℕ) : ℝ))) ∧
        CalModel_Heter_AS t1 c1 t2 c2 mar =
          .ok (lTA + lC,
            -2 * (lTA + lC)
              + (2 * Real.log ((t1.length + t2.length : ℕ) : ℝ)
                + Real.log ((c1.length + c2.length : ℕ) : ℝ))))) := by
  have hT0 : ¬ (t1.length + t2.length = 0) := by omega
  obtain ⟨⟨lT, kT⟩, hok⟩ :=
    greedyNoAS_ok t1.length t2.length (t1.length + t2.length) t1 t2
  obtain ⟨⟨lTA, kTA, rTA⟩, hokA⟩ :=
    greedyAS_ok t1.length t2.length (t1.length + t2.length) t1 t2 mar rfl
  refine ⟨lT, kT, lTA, kTA, rTA, hok, hokA, ?_⟩
  by_cases hC : c1.length + c2.length = 0
  · left
    refine ⟨hC, ?_, ?_⟩
    · unfold CalModel_Heter_noAS; rw [if_neg hT0, hok]; dsimp only; rw [if_pos hC]
    · unfold CalModel_Heter_AS; rw [if_neg hT0, hokA]; dsimp only; rw [if_pos hC]
  · right
    obtain ⟨⟨lC, kC⟩, hokC⟩ :=
      greedyNoAS_ok c1.length c2.length (c1.length + c2.length) c1 c2
    refine ⟨lC, kC, by omega, hokC, ?_, ?_⟩
    · have heq : CalModel_Heter_noAS t1 c1 t2 c2 =
          .ok (lT + lC,
            -2 * lT + -2 * lC
              + (Real.log ((t1.length + t2.length : ℕ) : ℝ)
                + Real.log ((c1.length + c2.length : ℕ) : ℝ))) := by
        unfold CalModel_Heter_noAS; rw [if_neg hT0, hok]; dsimp only; rw [if_neg hC, hokC]
      rw [heq]
      congr 2
      ring
    · have heq : CalModel_Heter_AS t1 c1 t2 c2 mar =
          .ok (lTA + lC,
            -2 * lTA + -2 * lC
              + (2 * Real.log ((t1.length + t2.length : ℕ) : ℝ)
                + Real.log ((c1.length + c2.length : ℕ) : ℝ))) := by
        unfold CalModel_Heter_AS; rw [if_neg hT0, hokA]; dsimp only; rw [if_neg hC, hokC]
      rw [heq]
      congr 2
      ring

/-- Witness for C6 at a concrete input (both groups nonempty). -/
theorem C6_BIC_formulas_witness :
    (1 ≤ List.length [3] + List.length ([] : List ℕ)) ∧
    (∃ lT kT lTA kTA rA,
      GreedyMaxFunctionNoAS (List.length [3]) (List.length ([] : List ℕ))
        (List.length [3] + List.length ([] : List ℕ)) [3] [] = .ok (lT, kT) ∧
      GreedyMaxFunctionAS (List.length [3]) (List.length ([] : List ℕ))
        (List.length [3] + List.length ([] : List ℕ)) [3] [] 0.99 = .ok (lTA, kTA, rA) ∧
      ((List.length [4] + List.length ([] : List ℕ) = 0 ∧
        CalModel_Heter_noAS [3] [4] [] [] =
          .ok (lT, -2 * lT + Real.log ((List.length [3] + List.length ([] : List ℕ) : ℕ) : ℝ)) ∧
        CalModel_Heter_AS [3] [4] [] [] 0.99 =
          .ok (lTA, -2 * lTA + 2 * Real.log ((List.length [3] + List.length ([] : List ℕ) : ℕ) : ℝ))) ∨
      (∃ lC kC, 1 ≤ List.length [4] + List.length ([] : List ℕ) ∧
        GreedyMaxFunctionNoAS (List.length [4]) (List.length ([] : List ℕ))
          (List.length [4] + List.length ([] : List ℕ)) [4] [] = .ok (lC, kC) ∧
        CalModel_Heter_noAS [3] [4] [] [] =
          .ok (lT + lC,
            -2 * (lT + lC)
              + (Real.log ((List.length [3] + List.length ([] : List ℕ) : ℕ) : ℝ)
                + Real.log ((List.length [4] + List.length ([] : List ℕ) : ℕ) : ℝ))) ∧
        CalModel_Heter_AS [3] [4] [] [] 0.99 =
          .ok (lTA + lC,
            -2 * (lTA + lC)
              + (2 * Real.log ((List.length [3] + List.length ([] : List ℕ) : ℕ) : ℝ)
                + Real.log ((List.length [4] + List.length ([] : List ℕ) : ℕ) : ℝ)))))) :=
  ⟨by decide, C6_BIC_formulas [3] [4] [] [] 0.99 (by decide)⟩

/-! ### Claim C1: the out-of-band clamp in `calculate_ln` -/

/-- C1 counterexample: for `r` below `1-maxAllowedRatio` the source still adds
`k*log(maxAllowedRatio) + (tn-k)*log(1-maxAllowedRatio)`, not the value
`k*log(1-maxAllowedRatio) + (tn-k)*log(maxAllowedRatio)` the claim predicts
for the nearest boundary `r' = 1-maxAllowedRatio`; at
`tn = 1, k = 0, r = 0, mar = 0.99` the two differ, and so do the resulting
values of `calculate_ln` at `r = 0` and at `r = 1-0.99`. -/
theorem C1_clamp_counterexample :
    ratioTerm 1 0 0 0.99 ≠
      (0 : ℝ) * Real.log (1 - 0.99) + ((1 : ℝ) - 0) * Real.log (1 - (1 - 0.99)) ∧
    calculate_ln 0 1 1 [] [10] 0 0 0.99 ≠ calculate_ln 0 1 1 [] [10] (1 - 0.99) 0 0.99 := by
  have hcl : ratioTerm 1 0 0 0.99 = Real.log 0.01 := by
    unfold ratioTerm
    rw [if_pos (by norm_num)]
    norm_num
  have h2 : ratioTerm 1 0 (1 - 0.99) 0.99 = Real.log 0.99 := by
    unfold ratioTerm
    rw [if_neg (by norm_num)]
    norm_num
  have hval : Real.log 0.01 < Real.log 0.99 := Real.log_lt_log (by norm_num) (by norm_num)
  constructor
  · have hclaim : (0 : ℝ) * Real.log (1 - 0.99) + ((1 : ℝ) - 0) * Real.log (1 - (1 - 0.99)) =
        Real.log 0.99 := by norm_num
    rw [hcl, hclaim]
    exact ne_of_lt hval
  · unfold calculate_ln
    rw [hcl, h2]
    intro hEq
    have hcomb := hEq
    linarith [hval, hEq]

/-- C1 amended: when `r` lies outside `[1-maxAllowedRatio, maxAllowedRatio]`,
`calculate_ln` equals its value at `r = maxAllowedRatio` regardless of the
side on which `r` escaped the band — the clamp always substitutes
`maxAllowedRatio`, and only the binomial-ratio term depends on `r`. -/
theorem C1_clamp_amended (m n tn : ℕ) (me ne : List ℕ) (k : ℕ) (mar r : ℝ)
    (hmar : 1 / 2 ≤ mar) (hr : r > mar ∨ r < 1 - mar) :
    calculate_ln m n tn me ne r k mar = calculate_ln m n tn me ne mar k mar := by
  have h2 : ¬ (mar > mar ∨ mar < 1 - mar) := by
    push_neg
    exact ⟨le_refl _, by linarith⟩
  unfold calculate_ln ratioTerm
  rw [if_pos hr, if_neg h2]

/-- Witness for the amended C1 at a concrete out-of-band input. -/
theorem C1_clamp_amended_witness :
    ((1 : ℝ) / 2 ≤ 0.99 ∧ ((0 : ℝ) > 0.99 ∨ (0 : ℝ) < 1 - 0.99)) ∧
    calculate_ln 0 1 1 [] [10] 0 0 0.99 = calculate_ln 0 1 1 [] [10] 0.99 0 0.99 :=
  ⟨⟨by norm_num, by norm_num⟩,
    C1_clamp_amended 0 1 1 [] [10] 0 0.99 0 (by norm_num) (by norm_num)⟩

/-! ### Claims C2 and C7: the score converters -/

lemma capAtOne_le_one (x : ℝ) : capAtOne x ≤ 1 := by
  unfold capAtOne
  split_ifs with h
  · exact le_refl _
  · push_neg at h; exact h

lemma capAtOne_pos {x : ℝ} (hx : 0 < x) : 0 < capAtOne x := by
  unfold capAtOne
  split_ifs with h
  · norm_num
  · exact hx

lemma floorTiny_pos {x : ℝ} (hx : 0 < x) : 0 < floorTiny x := by
  unfold floorTiny
  split_ifs with h
  · norm_num
  · exact hx

lemma floorTiny_le_one {x : ℝ} (hx : x ≤ 1) : floorTiny x ≤ 1 := by
  unfold floorTiny
  split_ifs with h
  · norm_num
  · exact hx

lemma ctrunc_nonneg {x : ℝ} (hx : 0 ≤ x) : 0 ≤ ctrunc x := by
  unfold ctrunc
  rw [if_pos hx]
  exact Int.floor_nonneg.mpr hx

lemma two_le_log_ten : (2 : ℝ) ≤ Real.log 10 := by
  rw [Real.le_log_iff_exp_le (by norm_num)]
  have h1 : Real.exp 1 < 2.7182818286 := Real.exp_one_lt_d9
  have h2 : Real.exp (2 : ℝ) = Real.exp 1 * Real.exp 1 := by
    rw [← Real.exp_add]; norm_num
  nlinarith [Real.exp_pos (1 : ℝ)]

/-- C2 counterexample: when the alternative-model mass is floored at `1e-110`,
`calculate_GQ` does not saturate at 255 — its integer Phred transform of the
floored mass exceeds 255. -/
theorem C2_gq_counterexample : 255 < calculate_GQ 0 (-1000) (-1000) := by
  have hsub : ((-1000 : ℝ) - 0) = -1000 := by norm_num
  have hpowpos : (0 : ℝ) < (10 : ℝ) ^ (110 : ℕ) := by positivity
  have hlog10 : Real.log ((10 : ℝ) ^ (110 : ℕ)) ≤ 990 := by
    rw [Real.log_pow]
    have h9 : Real.log (10 : ℝ) ≤ 9 := by
      have := Real.log_le_sub_one_of_pos (x := (10 : ℝ)) (by norm_num)
      linarith
    have hc : ((110 : ℕ) : ℝ) = 110 := by norm_num
    nlinarith
  have hbig : (10 : ℝ) ^ (110 : ℕ) < Real.exp 1000 := by
    rw [← Real.log_lt_iff_lt_exp hpowpos]
    linarith
  have hE : Real.exp (-1000 : ℝ) < 1e-110 := by
    have h10 : (1e-110 : ℝ) = ((10 : ℝ) ^ (110 : ℕ))⁻¹ := by norm_num
    rw [h10, Real.exp_neg]
    exact inv_lt_inv_of_lt hpowpos hbig
  have hcap : capAtOne (Real.exp ((-1000 : ℝ) - 0)) = Real.exp (-1000 : ℝ) := by
    unfold capAtOne
    rw [hsub, if_neg]
    push_neg
    linarith [hE]
  have hfloor : floorTiny (capAtOne (Real.exp ((-1000 : ℝ) - 0))) = 1e-110 := by
    rw [hcap]
    unfold floorTiny
    rw [if_pos hE]
  unfold calculate_GQ
  dsimp only
  rw [hfloor]
  have htmp : (1e-110 + 1e-110) / (1 + 1e-110 + 1e-110) > (1e-110 : ℝ) := by
    rw [gt_iff_lt, lt_div_iff (by norm_num)]
    norm_num
  rw [if_pos htmp]
  have h109pos : (0 : ℝ) < (10 : ℝ) ^ (109 : ℕ) := by positivity
  have htmp_le : (1e-110 + 1e-110) / (1 + 1e-110 + 1e-110) ≤ ((10 : ℝ) ^ (109 : ℕ))⁻¹ := by
    rw [div_le_iff (by norm_num), inv_mul_eq_div, le_div_iff h109pos]
    norm_num
  have hpos : (0 : ℝ) < (1e-110 + 1e-110) / (1 + 1e-110 + 1e-110) := by positivity
  have hlogtmp : Real.log ((1e-110 + 1e-110) / (1 + 1e-110 + 1e-110)) ≤ -218 := by
    have hmono := Real.log_le_log hpos htmp_le
    rw [Real.log_inv, Real.log_pow] at hmono
    have hc : ((109 : ℕ) : ℝ) = 109 := by norm_num
    nlinarith [two_le_log_ten]
  have hval : (256 : ℝ) ≤ -4.34294 * Real.log ((1e-110 + 1e-110) / (1 + 1e-110 + 1e-110)) := by
    nlinarith
  unfold ctrunc
  rw [if_pos (by linarith)]
  have hfl : (256 : ℤ) ≤ ⌊-4.34294 * Real.log ((1e-110 + 1e-110) / (1 + 1e-110 + 1e-110))⌋ :=
    Int.le_floor.mpr (by exact_mod_cast hval)
  omega

/-- C2 amended: both score converters always return a nonnegative integer,
but 255 is not an upper bound (see the counterexample, where the floored mass
yields a score near 1097). -/
theorem C2_gq_amended (lnL1 lnL2 lnL3 : ℝ) :
    0 ≤ calculate_GQ lnL1 lnL2 lnL3 ∧ 0 ≤ calculate_GQ_heterASsig lnL1 lnL2 := by
  constructor
  · unfold calculate_GQ
    dsimp only
    set a := floorTiny (capAtOne (Real.exp (lnL2 - lnL1))) with ha
    set b := floorTiny (capAtOne (Real.exp (lnL3 - lnL1))) with hb
    have hapos : 0 < a := floorTiny_pos (capAtOne_pos (Real.exp_pos _))
    have hbpos : 0 < b := floorTiny_pos (capAtOne_pos (Real.exp_pos _))
    split_ifs with htmp
    · apply ctrunc_nonneg
      have htle : (a + b) / (1 + a + b) ≤ 1 := by
        rw [div_le_one (by linarith)]
        linarith
      have hlog : Real.log ((a + b) / (1 + a + b)) ≤ 0 :=
        Real.log_nonpos (by positivity) htle
      nlinarith
    · norm_num
  · unfold calculate_GQ_heterASsig
    dsimp only
    set a := floorTiny (capAtOne (Real.exp (lnL2 - lnL1))) with ha
    have hapos : 0 < a := floorTiny_pos (capAtOne_pos (Real.exp_pos _))
    split_ifs with htmp
    · apply ctrunc_nonneg
      have htle : a / (1 + a) ≤ 1 := by
        rw [div_le_one (by linarith)]
        linarith
      have hlog : Real.log (a / (1 + a)) ≤ 0 :=
        Real.log_nonpos (by positivity) htle
      nlinarith
    · norm_num

/-- Key evaluation for C7: with three equal log-likelihoods the clamped ratios
are both exactly 1, the mass ratio is `2/3`, and the C `(int)` cast truncates
`-4.34294 * log(2/3) = 1.76..` down to `1`. -/
lemma calculate_GQ_diag (lnL : ℝ) : calculate_GQ lnL lnL lnL = 1 := by
  have h1 : capAtOne (Real.exp (lnL - lnL)) = 1 := by
    rw [sub_self, Real.exp_zero]
    unfold capAtOne
    rw [if_neg (lt_irrefl 1)]
  have h2 : floorTiny (capAtOne (Real.exp (lnL - lnL))) = 1 := by
    rw [h1]
    unfold floorTiny
    rw [if_neg (by norm_num)]
  unfold calculate_GQ
  dsimp only
  rw [h2]
  have htmp : ((1 : ℝ) + 1) / (1 + 1 + 1) > 1e-110 := by norm_num
  rw [if_pos htmp]
  have harg : ((1 : ℝ) + 1) / (1 + 1 + 1) = ((3 : ℝ) / 2)⁻¹ := by norm_num
  rw [harg, Real.log_inv]
  have hlb : (1 : ℝ) / 3 ≤ Real.log (3 / 2) := by
    have h := one_sub_inv_le_log (x := (3 : ℝ) / 2) (by norm_num)
    have : (1 : ℝ) - ((3 : ℝ) / 2)⁻¹ = 1 / 3 := by norm_num
    linarith [this ▸ h]
  have hub : Real.log ((3 : ℝ) / 2) ≤ 0.46 := by
    rw [Real.log_le_iff_le_exp (by norm_num)]
    have h23 : (1.23 : ℝ) ≤ Real.exp 0.23 := by
      have := Real.add_one_le_exp (0.23 : ℝ)
      linarith
    have hsplit : Real.exp (0.46 : ℝ) = Real.exp 0.23 * Real.exp 0.23 := by
      rw [← Real.exp_add]; norm_num
    nlinarith [Real.exp_pos (0.23 : ℝ)]
  unfold ctrunc
  rw [if_pos (by nlinarith)]
  rw [Int.floor_eq_iff]
  constructor
  · push_cast
    nlinarith
  · push_cast
    nlinarith

/-- C7 counterexample: at three equal log-likelihoods `calculate_GQ` returns
`1`, not the claimed `round(-4.34294*log(2/3)) = 2` — the C `(int)` cast
truncates instead of rounding. -/
theorem C7_diag_counterexample : calculate_GQ 0 0 0 ≠ 2 := by
  rw [calculate_GQ_diag]
  decide

/-- C7 amended: for every log-likelihood value, `calculate_GQ(lnL, lnL, lnL)`
returns the truncation `int(-4.34294*log(2/3)) = 1`. -/
theorem C7_diag_amended (lnL : ℝ) : calculate_GQ lnL lnL lnL = 1 :=
  calculate_GQ_diag lnL

/-! ### Concrete evaluations of `calculate_ln` at `tn = 2` -/

lemma log_phredE (q : ℕ) : Real.log (phredE q) = -((q : ℝ) * LN10_tenth) :=
  Real.log_exp _

lemma calculate_ln_1_1_2 (a b : ℕ) (r mar : ℝ) (k : ℕ) :
    calculate_ln 1 1 2 [a] [b] r k mar =
      ratioTerm 2 k r mar + combTerm 2 k + errTop1 2 k a + errTop2 2 k b := by
  unfold calculate_ln
  simp

lemma calculate_ln_0_2_2 (a b : ℕ) (r mar : ℝ) (k : ℕ) :
    calculate_ln 0 2 2 [] [a, b] r k mar =
      ratioTerm 2 k r mar + combTerm 2 k + (errTop2 2 k a + errTop2 2 k b) := by
  unfold calculate_ln
  simp [Finset.sum_range_succ]

lemma errTop1_2_0 (q : ℕ) : errTop1 2 0 q = Real.log (phredE q) := by
  unfold errTop1
  norm_num

lemma errTop2_2_0 (q : ℕ) : errTop2 2 0 q = Real.log (1 - phredE q) := by
  unfold errTop2
  norm_num

lemma errTop1_2_1 (q : ℕ) : errTop1 2 1 q = Real.log ((1 : ℝ) / 2) := by
  unfold errTop1
  rw [show (1 - phredE q) * (((1 : ℕ) : ℝ) / ((2 : ℕ) : ℝ))
      + phredE q * (1 - ((1 : ℕ) : ℝ) / ((2 : ℕ) : ℝ)) = (1 : ℝ) / 2 from by
    push_cast; ring]

lemma errTop2_2_1 (q : ℕ) : errTop2 2 1 q = Real.log ((1 : ℝ) / 2) := by
  unfold errTop2
  rw [show (1 - phredE q) * (1 - ((1 : ℕ) : ℝ) / ((2 : ℕ) : ℝ))
      + phredE q * (((1 : ℕ) : ℝ) / ((2 : ℕ) : ℝ)) = (1 : ℝ) / 2 from by
    push_cast; ring]

lemma errTop1_2_2 (q : ℕ) : errTop1 2 2 q = Real.log (1 - phredE q) := by
  unfold errTop1
  rw [show (1 - phredE q) * (((2 : ℕ) : ℝ) / ((2 : ℕ) : ℝ))
      + phredE q * (1 - ((2 : ℕ) : ℝ) / ((2 : ℕ) : ℝ)) = 1 - phredE q from by
    push_cast; ring]

lemma errTop2_2_2 (q : ℕ) : errTop2 2 2 q = Real.log (phredE q) := by
  unfold errTop2
  rw [show (1 - phredE q) * (1 - ((2 : ℕ) : ℝ) / ((2 : ℕ) : ℝ))
      + phredE q * (((2 : ℕ) : ℝ) / ((2 : ℕ) : ℝ)) = phredE q from by
    push_cast; ring]

lemma combTerm_2_0 : combTerm 2 0 = 0 := by
  unfold combTerm
  rw [if_pos (Or.inl rfl)]

lemma combTerm_2_2 : combTerm 2 2 = 0 := by
  unfold combTerm
  rw [if_pos (Or.inr rfl)]

lemma combTerm_2_1 : combTerm 2 1 = Real.log 2 := by
  unfold combTerm
  rw [if_neg (by norm_num), if_pos (by norm_num), Finset.sum_range_one]
  norm_num

lemma ratioTerm_2_0_zero : ratioTerm 2 0 0 0.99 = 2 * Real.log 0.01 := by
  unfold ratioTerm
  rw [if_pos (by norm_num)]
  norm_num

lemma ratioTerm_2_0_zero_cast :
    ratioTerm 2 0 (((0 : ℕ) : ℝ) / ((2 : ℕ) : ℝ)) 0.99 = 2 * Real.log 0.01 := by
  rw [show (((0 : ℕ) : ℝ) / ((2 : ℕ) : ℝ)) = (0 : ℝ) from by norm_num]
  exact ratioTerm_2_0_zero

lemma ratioTerm_2_1_half : ratioTerm 2 1 ((1 : ℝ) / 2) 0.99 = 2 * Real.log ((1 : ℝ) / 2) := by
  unfold ratioTerm
  rw [if_neg (by norm_num)]
  rw [show (1 : ℝ) - 1 / 2 = 1 / 2 from by norm_num]
  push_cast
  ring

lemma ratioTerm_2_1_half_cast :
    ratioTerm 2 1 (((1 : ℕ) : ℝ) / ((2 : ℕ) : ℝ)) 0.99 = 2 * Real.log ((1 : ℝ) / 2) := by
  rw [show (((1 : ℕ) : ℝ) / ((2 : ℕ) : ℝ)) = (1 : ℝ) / 2 from by norm_num]
  exact ratioTerm_2_1_half

lemma ratioTerm_2_2_one_cast :
    ratioTerm 2 2 (((2 : ℕ) : ℝ) / ((2 : ℕ) : ℝ)) 0.99 = 2 * Real.log 0.99 := by
  unfold ratioTerm
  rw [if_pos (Or.inl (by norm_num))]
  push_cast
  ring

lemma log_hundred_ge : 3 * Real.log 2 ≤ Real.log 100 := by
  have h8 : Real.log ((2 : ℝ) ^ (3 : ℕ)) = 3 * Real.log 2 := by
    rw [Real.log_pow]; norm_num
  have hle : Real.log ((2 : ℝ) ^ (3 : ℕ)) ≤ Real.log 100 :=
    Real.log_le_log (by norm_num) (by norm_num)
  linarith

lemma log_001 : Real.log (0.01 : ℝ) = -Real.log 100 := by
  rw [show (0.01 : ℝ) = (100 : ℝ)⁻¹ from by norm_num, Real.log_inv]

lemma log_half : Real.log ((1 : ℝ) / 2) = -Real.log 2 := by
  rw [show (1 : ℝ) / 2 = (2 : ℝ)⁻¹ from by norm_num, Real.log_inv]

/-! ### Claim C3 counterexample: the degenerate extreme is not a local max -/

/-- C3 counterexample: at `m = 0, n = 2` (two top2 reads of quality 10),
`GreedyMaxFunctionAS` returns `k = 0` from its degenerate branch without any
neighbor check, yet the likelihood at `k = 1` (evaluated at `r = k/tn = 1/2`)
exceeds the likelihood at the returned `k = 0` by far more than `1e-8`, so the
returned count is not a local maximum. -/
theorem C3_localmax_counterexample :
    GreedyMaxFunctionAS 0 2 2 [] [10, 10] 0.99 =
      .ok (calculate_ln 0 2 2 [] [10, 10] 0 0 0.99, 0, 1 - 0.99) ∧
    calculate_ln 0 2 2 [] [10, 10] ((1 : ℝ) / 2) 1 0.99 >
      calculate_ln 0 2 2 [] [10, 10] 0 0 0.99 + 1e-8 := by
  constructor
  · unfold GreedyMaxFunctionAS
    rw [if_neg (by norm_num), if_neg (by norm_num), if_pos rfl]
  · have h0 : calculate_ln 0 2 2 [] [10, 10] 0 0 0.99 =
        2 * Real.log 0.01 + 2 * Real.log (1 - phredE 10) := by
      rw [calculate_ln_0_2_2, ratioTerm_2_0_zero, combTerm_2_0, errTop2_2_0]
      ring
    have h1 : calculate_ln 0 2 2 [] [10, 10] ((1 : ℝ) / 2) 1 0.99 = -(3 * Real.log 2) := by
      rw [calculate_ln_0_2_2, ratioTerm_2_1_half, combTerm_2_1, errTop2_2_1, log_half]
      ring
    rw [h0, h1]
    have hme : Real.log (1 - phredE 10) ≤ 0 :=
      Real.log_nonpos (by linarith [phredE_le_one 10]) (by linarith [phredE_pos 10])
    have h100 := log_hundred_ge
    have hl2 := Real.log_two_gt_d9
    rw [log_001]
    linarith

/-! ### Claim C4 counterexample: the returned allele ratio can be exactly 1 -/

lemma phredE_30_le : phredE 30 ≤ 0.13 := by
  have h1 : phredE 30 ≤ (1 + (30 : ℝ) * LN10_tenth)⁻¹ := by
    have h := exp_neg_le_inv_one_add
      (y := ((30 : ℕ) : ℝ) * LN10_tenth)
      (mul_nonneg (Nat.cast_nonneg 30) (le_of_lt LN10_tenth_pos))
    unfold phredE
    convert h using 3 <;> push_cast <;> ring
  have h2 : (1 + (30 : ℝ) * LN10_tenth)⁻¹ ≤ (7.7 : ℝ)⁻¹ :=
    inv_le_inv_of_le_left (by norm_num) (by norm_num [LN10_tenth])
  have h3 : ((7.7 : ℝ))⁻¹ ≤ 0.13 := by norm_num
  linarith

lemma log_one_sub_phredE30_ge : -0.15 ≤ Real.log (1 - phredE 30) := by
  have hf := phredE_30_le
  have hpos : (0.87 : ℝ) ≤ 1 - phredE 30 := by linarith
  have h := one_sub_inv_le_log (x := 1 - phredE 30) (by linarith)
  have hinv : (1 - phredE 30)⁻¹ ≤ ((0.87 : ℝ))⁻¹ :=
    inv_le_inv_of_le_left (by norm_num) hpos
  have : ((0.87 : ℝ))⁻¹ ≤ 1.15 := by norm_num
  linarith

lemma log_099_ge : -(0.0102 : ℝ) ≤ Real.log 0.99 := by
  have h := one_sub_inv_le_log (x := (0.99 : ℝ)) (by norm_num)
  have : (1 : ℝ) - ((0.99 : ℝ))⁻¹ = -(1 / 99) := by norm_num
  rw [this] at h
  linarith

/-- The three likelihood values entering the decision branch of
`GreedyMaxFunctionAS 1 1 2 [30] [1] 0.99`. -/
lemma C4_values :
    LAS 1 1 2 [30] [1] 0.99 1 = -(3 * Real.log 2) ∧
    LAS 1 1 2 [30] [1] 0.99 0 =
      2 * Real.log 0.01 + (-((30 : ℝ) * LN10_tenth)) + Real.log (1 - phredE 1) ∧
    LAS 1 1 2 [30] [1] 0.99 2 =
      2 * Real.log 0.99 + Real.log (1 - phredE 30) + (-((1 : ℝ) * LN10_tenth)) := by
  refine ⟨?_, ?_, ?_⟩
  · rw [show LAS 1 1 2 [30] [1] 0.99 1 =
        calculate_ln 1 1 2 [30] [1] (((1 : ℕ) : ℝ) / ((2 : ℕ) : ℝ)) 1 0.99 from rfl]
    rw [calculate_ln_1_1_2, ratioTerm_2_1_half_cast, combTerm_2_1,
      errTop1_2_1, errTop2_2_1, log_half]
    ring
  · rw [show LAS 1 1 2 [30] [1] 0.99 0 =
        calculate_ln 1 1 2 [30] [1] (((0 : ℕ) : ℝ) / ((2 : ℕ) : ℝ)) 0 0.99 from rfl]
    rw [calculate_ln_1_1_2, ratioTerm_2_0_zero_cast, combTerm_2_0,
      errTop1_2_0, errTop2_2_0, log_phredE]
    push_cast
    ring
  · rw [show LAS 1 1 2 [30] [1] 0.99 2 =
        calculate_ln 1 1 2 [30] [1] (((2 : ℕ) : ℝ) / ((2 : ℕ) : ℝ)) 2 0.99 from rfl]
    rw [calculate_ln_1_1_2, ratioTerm_2_2_one_cast, combTerm_2_2,
      errTop1_2_2, errTop2_2_2, log_phredE]
    push_cast
    ring

lemma C4_d1l_le_d0 : LAS 1 1 2 [30] [1] 0.99 0 ≤ LAS 1 1 2 [30] [1] 0.99 1 := by
  obtain ⟨h1, h0, _⟩ := C4_values
  rw [h1, h0, log_001]
  have hme : Real.log (1 - phredE 1) ≤ 0 :=
    Real.log_nonpos (by linarith [phredE_le_one 1]) (by linarith [phredE_pos 1])
  have h100 := log_hundred_ge
  have hl2pos : (0 : ℝ) ≤ Real.log 2 := Real.log_nonneg (by norm_num)
  have hc := LN10_tenth_pos
  nlinarith [Real.log_nonneg (show (1 : ℝ) ≤ 100 from by norm_num)]

lemma C4_d1r_ge_d0 :
    LAS 1 1 2 [30] [1] 0.99 1 + 1e-8 ≤ LAS 1 1 2 [30] [1] 0.99 2 := by
  obtain ⟨h1, _, h2⟩ := C4_values
  rw [h1, h2]
  have f1 := log_099_ge
  have f3 := log_one_sub_phredE30_ge
  have f4 := Real.log_two_lt_d9
  have f5 := Real.log_two_gt_d9
  have hc : LN10_tenth = 0.23025850929940458 := rfl
  rw [hc]
  linarith

/-- C4 counterexample: on `m = 1, n = 1` with a high-quality top1 read and a
low-quality top2 read, `GreedyMaxFunctionAS` walks up to `k = tn = 2` and
returns allele ratio `2/2 = 1`, which lies outside the claimed band
`[1-maxAllowedRatio, maxAllowedRatio] = [0.01, 0.99]`. -/
theorem C4_ratio_counterexample :
    GreedyMaxFunctionAS 1 1 2 [30] [1] 0.99 =
      .ok (calculate_ln 1 1 2 [30] [1] (((2 : ℕ) : ℝ) / ((2 : ℕ) : ℝ)) 2 0.99, 2, 1) ∧
    ¬ ((1 : ℝ) ≤ 0.99) := by
  constructor
  · unfold GreedyMaxFunctionAS
    rw [if_neg (by norm_num), if_neg (by norm_num), if_neg (by norm_num),
      if_neg (by norm_num)]
    rw [show (1 : ℕ) - 1 = 0 from rfl, show (1 : ℕ) + 1 = 2 from rfl]
    have hcond1 : ¬ (LAS 1 1 2 [30] [1] 0.99 1 > LAS 1 1 2 [30] [1] 0.99 0 - 1e-8 ∧
        LAS 1 1 2 [30] [1] 0.99 1 > LAS 1 1 2 [30] [1] 0.99 2 - 1e-8) := by
      intro hcon
      have := C4_d1r_ge_d0
      linarith [hcon.2]
    have hcond2 : ¬ (LAS 1 1 2 [30] [1] 0.99 0 > LAS 1 1 2 [30] [1] 0.99 1) := by
      push_neg
      exact C4_d1l_le_d0
    have hcond3 : LAS 1 1 2 [30] [1] 0.99 2 > LAS 1 1 2 [30] [1] 0.99 1 := by
      have := C4_d1r_ge_d0
      linarith [eps_pos]
    rw [if_neg hcond1, if_neg hcond2, if_pos hcond3]
    dsimp only
    rw [show walkU (LAS 1 1 2 [30] [1] 0.99) 0 2 (LAS 1 1 2 [30] [1] 0.99 2) =
      (LAS 1 1 2 [30] [1] 0.99 2, 2) from rfl]
    dsimp only
    exact congrArg Except.ok (Prod.ext rfl (Prod.ext rfl (by norm_num)))
  · norm_num

/-- C4 amended: in the degenerate extremes `m = 0` and `m = tn` (with
`tn ≥ 2`) `GreedyMaxFunctionAS` returns the clamp ratios `1-maxAllowedRatio`
and `maxAllowedRatio`; outside those branches the returned ratio is the
unclamped `k/tn`, which the counterexample shows can be exactly `1`. -/
theorem C4_ratio_amended (m n tn : ℕ) (me ne : List ℕ) (mar : ℝ)
    (he : m + n = tn) (h2 : 2 ≤ tn) :
    (m = 0 → GreedyMaxFunctionAS m n tn me ne mar =
      .ok (calculate_ln m n tn me ne 0 m mar, m, 1 - mar)) ∧
    (m = tn → GreedyMaxFunctionAS m n tn me ne mar =
      .ok (calculate_ln m n tn me ne 1 m mar, m, mar)) := by
  constructor
  · intro hm
    unfold GreedyMaxFunctionAS
    rw [if_neg (by omega), if_neg (by omega), if_pos hm]
  · intro hm
    unfold GreedyMaxFunctionAS
    rw [if_neg (by omega), if_neg (by omega), if_neg (by omega), if_pos hm]

/-- Witness for the amended C4 at a concrete degenerate input. -/
theorem C4_ratio_amended_witness :
    (0 + 2 = 2 ∧ 2 ≤ 2) ∧
    GreedyMaxFunctionAS 0 2 2 [] [5, 5] 0.99 =
      .ok (calculate_ln 0 2 2 [] [5, 5] 0 0 0.99, 0, 1 - 0.99) :=
  ⟨⟨rfl, by omega⟩, (C4_ratio_amended 0 2 2 [] [5, 5] 0.99 rfl (by omega)).1 rfl⟩

/-- C3 amended: on non-degenerate inputs (`1 ≤ m ≤ tn-1`),
`GreedyMaxFunctionNoAS` returns a count that is a local maximum of the `r=0.5`
likelihood over all of `[0, tn]`, and `GreedyMaxFunctionAS` returns a count
whose neighbors inside `[1, tn-1]` cannot improve the `r=k/tn` likelihood by
more than `1e-8`; the AS guarantee does not extend to the unexamined boundary
neighbors `0` and `tn`, and the degenerate branches `m = 0`, `m = tn` of both
searches return the observed extreme without any neighbor check. -/
theorem C3_localmax_amended (m n tn : ℕ) (me ne : List ℕ) (mar : ℝ)
    (h1 : 1 ≤ m) (h2 : m + 1 ≤ tn) (he : m + n = tn) :
    (∃ l k, GreedyMaxFunctionNoAS m n tn me ne = .ok (l, k) ∧
      l = LnoAS m n tn me ne k ∧ k ≤ tn ∧ localMaxNoAS (LnoAS m n tn me ne) tn k) ∧
    (∃ l k, GreedyMaxFunctionAS m n tn me ne mar = .ok (l, k, (k : ℝ) / (tn : ℝ)) ∧
      l = LAS m n tn me ne mar k ∧ k ≤ tn ∧ localMaxInner (LAS m n tn me ne mar) tn k) := by
  constructor
  · unfold GreedyMaxFunctionNoAS
    rw [if_neg (by omega : ¬ (tn = 1)), if_neg (by omega : ¬ (m = 0)),
      if_neg (by omega : ¬ (m = tn))]
    split_ifs with hc hl hr
    · refine ⟨_, m, rfl, rfl, by omega, ?_, ?_⟩
      · intro _; linarith [hc.1]
      · intro _; linarith [hc.2]
    · have hspec := walkD_spec (LnoAS m n tn me ne) (m - 1) (m - 1)
        (LnoAS m n tn me ne (m - 1)) (le_refl _) rfl (by
          rw [show m - 1 + 1 = m from by omega]
          linarith [eps_pos])
      obtain ⟨c1, c2, c3, c4, c5⟩ := hspec
      refine ⟨_, _, rfl, c1, by omega, ?_, ?_⟩
      · intro hk1
        rw [← c1]
        exact c5 (by omega)
      · intro _
        rw [← c1]
        exact c4
    · have hspec := walkU_spec (LnoAS m n tn me ne) (tn - (m + 1)) (m + 1)
        (LnoAS m n tn me ne (m + 1)) (by omega) rfl (by
          rw [show m + 1 - 1 = m from by omega]
          linarith [eps_pos])
      obtain ⟨c1, c2, c3, c4, c5⟩ := hspec
      refine ⟨_, _, rfl, c1, by omega, ?_, ?_⟩
      · intro _
        rw [← c1]
        exact c4
      · intro hk
        rw [← c1]
        exact c5 (by omega)
    · exfalso
      push_neg at hc hl hr
      have hA : LnoAS m n tn me ne m > LnoAS m n tn me ne (m - 1) - 1e-8 := by
        linarith [eps_pos]
      have hB := hc hA
      linarith
  · unfold GreedyMaxFunctionAS
    rw [if_neg (by omega : ¬ (m + n ≠ tn)), if_neg (by omega : ¬ (tn = 1)),
      if_neg (by omega : ¬ (m = 0)), if_neg (by omega : ¬ (m = tn))]
    split_ifs with hc hl hr
    · refine ⟨_, m, rfl, rfl, by omega, ?_, ?_⟩
      · intro _; linarith [hc.1]
      · intro _; linarith [hc.2]
    · have hspec := walkD_spec (LAS m n tn me ne mar) (m - 2) (m - 1)
        (LAS m n tn me ne mar (m - 1)) (by omega) rfl (by
          rw [show m - 1 + 1 = m from by omega]
          linarith [eps_pos])
      obtain ⟨c1, c2, c3, c4, c5⟩ := hspec
      refine ⟨_, _, rfl, c1, by omega, ?_, ?_⟩
      · intro hk2
        rw [← c1]
        exact c5 (by omega)
      · intro _
        rw [← c1]
        exact c4
    · have hspec := walkU_spec (LAS m n tn me ne mar) (tn - 1 - (m + 1)) (m + 1)
        (LAS m n tn me ne mar (m + 1)) (by omega) rfl (by
          rw [show m + 1 - 1 = m from by omega]
          linarith [eps_pos])
      obtain ⟨c1, c2, c3, c4, c5⟩ := hspec
      refine ⟨_, _, rfl, c1, by omega, ?_, ?_⟩
      · intro _
        rw [← c1]
        exact c4
      · intro hk
        rw [← c1]
        exact c5 (by omega)
    · exfalso
      push_neg at hc hl hr
      have hA : LAS m n tn me ne mar m > LAS m n tn me ne mar (m - 1) - 1e-8 := by
        linarith [eps_pos]
      have hB := hc hA
      linarith

/-- Witness for the amended C3 at a concrete non-degenerate input. -/
theorem C3_localmax_amended_witness :
    (1 ≤ 1 ∧ 1 + 1 ≤ 2 ∧ 1 + 1 = 2) ∧
    ((∃ l k, GreedyMaxFunctionNoAS 1 1 2 [3] [4] = .ok (l, k) ∧
      l = LnoAS 1 1 2 [3] [4] k ∧ k ≤ 2 ∧ localMaxNoAS (LnoAS 1 1 2 [3] [4]) 2 k) ∧
    (∃ l k, GreedyMaxFunctionAS 1 1 2 [3] [4] 0.99 = .ok (l, k, (k : ℝ) / ((2 : ℕ) : ℝ)) ∧
      l = LAS 1 1 2 [3] [4] 0.99 k ∧ k ≤ 2 ∧ localMaxInner (LAS 1 1 2 [3] [4] 0.99) 2 k)) :=
  ⟨⟨by omega, by omega, rfl⟩,
    C3_localmax_amended 1 1 2 [3] [4] 0.99 (by omega) (by omega) rfl⟩

/-! ### Claim C8: swap symmetry of `calculate_ln` -/

lemma calculate_ln_1_0_1 (a : ℕ) (r mar : ℝ) (k : ℕ) :
    calculate_ln 1 0 1 [a] [] r k mar =
      ratioTerm 1 k r mar + combTerm 1 k + errTop1 1 k a := by
  unfold calculate_ln
  simp

lemma calculate_ln_0_1_1 (a : ℕ) (r mar : ℝ) (k : ℕ) :
    calculate_ln 0 1 1 [] [a] r k mar =
      ratioTerm 1 k r mar + combTerm 1 k + errTop2 1 k a := by
  unfold calculate_ln
  simp

lemma combTerm_1_1 : combTerm 1 1 = 0 := by
  unfold combTerm
  rw [if_pos (Or.inr rfl)]

lemma errTop1_1_1 (q : ℕ) : errTop1 1 1 q = Real.log (1 - phredE q) := by
  unfold errTop1
  rw [show (1 - phredE q) * (((1 : ℕ) : ℝ) / ((1 : ℕ) : ℝ))
      + phredE q * (1 - ((1 : ℕ) : ℝ) / ((1 : ℕ) : ℝ)) = 1 - phredE q from by
    push_cast; ring]

lemma errTop2_1_1 (q : ℕ) : errTop2 1 1 q = Real.log (phredE q) := by
  unfold errTop2
  rw [show (1 - phredE q) * (1 - ((1 : ℕ) : ℝ) / ((1 : ℕ) : ℝ))
      + phredE q * (((1 : ℕ) : ℝ) / ((1 : ℕ) : ℝ)) = phredE q from by
    push_cast; ring]

lemma phredE_10_le : phredE 10 ≤ 0.31 := by
  have h1 : phredE 10 ≤ (1 + (10 : ℝ) * LN10_tenth)⁻¹ := by
    have h := exp_neg_le_inv_one_add
      (y := ((10 : ℕ) : ℝ) * LN10_tenth)
      (mul_nonneg (Nat.cast_nonneg 10) (le_of_lt LN10_tenth_pos))
    unfold phredE
    convert h using 3 <;> push_cast <;> ring
  have h2 : (1 + (10 : ℝ) * LN10_tenth)⁻¹ ≤ (3.3 : ℝ)⁻¹ :=
    inv_le_inv_of_le_left (by norm_num) (by norm_num [LN10_tenth])
  have h3 : ((3.3 : ℝ))⁻¹ ≤ 0.31 := by norm_num
  linarith

lemma log_one_sub_phredE10_ge : -0.45 ≤ Real.log (1 - phredE 10) := by
  have hf := phredE_10_le
  have hpos : (0.69 : ℝ) ≤ 1 - phredE 10 := by linarith
  have h := one_sub_inv_le_log (x := 1 - phredE 10) (by linarith)
  have hinv : (1 - phredE 10)⁻¹ ≤ ((0.69 : ℝ))⁻¹ :=
    inv_le_inv_of_le_left (by norm_num) hpos
  have : ((0.69 : ℝ))⁻¹ ≤ 1.45 := by norm_num
  linarith

/-- C8 counterexample: swapping the two read groups and replacing `r` by `1-r`
while keeping `k` unchanged does not preserve `calculate_ln`: at
`m = 1, n = 0, k = 1, r = 3/10` the two sides differ by about `0.5`. -/
theorem C8_symmetry_counterexample :
    calculate_ln 1 0 1 [10] [] (3 / 10) 1 0.99 ≠
      calculate_ln 0 1 1 [] [10] (1 - 3 / 10) 1 0.99 := by
  have hL : calculate_ln 1 0 1 [10] [] (3 / 10) 1 0.99 =
      Real.log (3 / 10) + Real.log (1 - phredE 10) := by
    rw [calculate_ln_1_0_1, combTerm_1_1, errTop1_1_1]
    have hrt : ratioTerm 1 1 (3 / 10) 0.99 = Real.log (3 / 10) := by
      unfold ratioTerm
      rw [if_neg (by norm_num)]
      push_cast
      ring
    rw [hrt]
    ring
  have hR : calculate_ln 0 1 1 [] [10] (1 - 3 / 10) 1 0.99 =
      Real.log (7 / 10) + (-((10 : ℝ) * LN10_tenth)) := by
    rw [calculate_ln_0_1_1, combTerm_1_1, errTop2_1_1]
    have hrt : ratioTerm 1 1 (1 - 3 / 10) 0.99 = Real.log (7 / 10) := by
      unfold ratioTerm
      rw [if_neg (by norm_num), show (1 : ℝ) - 3 / 10 = 7 / 10 from by norm_num]
      push_cast
      ring
    rw [hrt, log_phredE]
    push_cast
    ring
  rw [hL, hR]
  have hdiv : Real.log ((3 : ℝ) / 7) = Real.log (3 / 10) - Real.log (7 / 10) := by
    rw [show (3 : ℝ) / 7 = (3 / 10) / (7 / 10) from by norm_num,
      Real.log_div (by norm_num) (by norm_num)]
  have h37 : -(4 / 3 : ℝ) ≤ Real.log ((3 : ℝ) / 7) := by
    have h := one_sub_inv_le_log (x := (3 : ℝ) / 7) (by norm_num)
    have : (1 : ℝ) - ((3 : ℝ) / 7)⁻¹ = -(4 / 3) := by norm_num
    linarith [this ▸ h]
  have he10 := log_one_sub_phredE10_ge
  have hc : LN10_tenth = 0.23025850929940458 := rfl
  intro hEq
  rw [hc] at hEq
  have := hdiv
  linarith

lemma ratioTerm_symm (tn k : ℕ) (r mar : ℝ) (hk : k ≤ tn)
    (hr1 : 1 - mar ≤ r) (hr2 : r ≤ mar) :
    ratioTerm tn k r mar = ratioTerm tn (tn - k) (1 - r) mar := by
  unfold ratioTerm
  rw [if_neg (by push_neg; constructor <;> linarith),
    if_neg (by push_neg; constructor <;> linarith)]
  rw [Nat.cast_sub hk]
  rw [show (1 : ℝ) - (1 - r) = r from by ring]
  ring

lemma combTerm_symm (tn k : ℕ) (hk : k ≤ tn) : combTerm tn k = combTerm tn (tn - k) := by
  by_cases hk0 : k = 0
  · subst hk0
    rw [show tn - 0 = tn from by omega]
    unfold combTerm
    rw [if_pos (Or.inl rfl), if_pos (Or.inr rfl)]
  by_cases hktn : k = tn
  · subst hktn
    rw [show k - k = 0 from by omega]
    unfold combTerm
    rw [if_pos (Or.inr rfl), if_pos (Or.inl rfl)]
  unfold combTerm
  rw [if_neg (show ¬ (k = 0 ∨ k = tn) from by omega),
    if_neg (show ¬ (tn - k = 0 ∨ tn - k = tn) from by omega)]
  by_cases hhalf : k ≤ tn / 2
  · rw [if_pos hhalf]
    by_cases hhalf2 : tn - k ≤ tn / 2
    · rw [if_pos hhalf2, show tn - k = k from by omega]
    · rw [if_neg hhalf2, show tn - (tn - k) = k from by omega,
        Nat.cast_sub hk]
      apply Finset.sum_congr rfl
      intro i _
      congr 1
      ring
  · rw [if_neg hhalf, if_pos (show tn - k ≤ tn / 2 from by omega),
      Nat.cast_sub hk]

lemma errTop1_symm (tn k q : ℕ) (hk : k ≤ tn) (htn : 0 < tn) :
    errTop1 tn k q = errTop2 tn (tn - k) q := by
  unfold errTop1 errTop2
  have htn0 : ((tn : ℕ) : ℝ) ≠ 0 := Nat.cast_ne_zero.mpr (by omega)
  rw [Nat.cast_sub hk]
  congr 1
  field_simp

lemma errTop2_symm (tn k q : ℕ) (hk : k ≤ tn) (htn : 0 < tn) :
    errTop2 tn k q = errTop1 tn (tn - k) q := by
  unfold errTop1 errTop2
  have htn0 : ((tn : ℕ) : ℝ) ≠ 0 := Nat.cast_ne_zero.mpr (by omega)
  rw [Nat.cast_sub hk]
  congr 1
  field_simp

/-- C8 amended: `calculate_ln` is symmetric under swapping `(m, topQ)` with
`(n, secondQ)` together with `r ↦ 1-r` AND `k ↦ tn-k`, provided `r` lies
inside the band `[1-maxAllowedRatio, maxAllowedRatio]` (outside it the
one-sided clamp of C1 breaks the symmetry); with `k` kept fixed the symmetry
fails, as the counterexample shows. -/
theorem C8_swap_symmetry (m n : ℕ) (me ne : List ℕ) (r mar : ℝ) (k : ℕ)
    (hm : m = me.length) (hn : n = ne.length) (hk : k ≤ m + n)
    (hr1 : 1 - mar ≤ r) (hr2 : r ≤ mar) :
    calculate_ln m n (m + n) me ne r k mar =
      calculate_ln n m (m + n) ne me (1 - r) (m + n - k) mar := by
  unfold calculate_ln
  have h1 : ratioTerm (m + n) k r mar = ratioTerm (m + n) (m + n - k) (1 - r) mar :=
    ratioTerm_symm _ _ _ _ hk hr1 hr2
  have h2 : combTerm (m + n) k = combTerm (m + n) (m + n - k) :=
    combTerm_symm _ _ hk
  rcases Nat.eq_zero_or_pos (m + n) with h0 | hpos
  · have hm0 : m = 0 := by omega
    have hn0 : n = 0 := by omega
    rw [h1, h2]
    simp [hm0, hn0]
  · have hs1 : ∑ i ∈ Finset.range m, errTop1 (m + n) k (me.getD i 0)
        = ∑ i ∈ Finset.range m, errTop2 (m + n) (m + n - k) (me.getD i 0) :=
      Finset.sum_congr rfl (fun i _ => errTop1_symm _ _ _ hk hpos)
    have hs2 : ∑ i ∈ Finset.range n, errTop2 (m + n) k (ne.getD i 0)
        = ∑ i ∈ Finset.range n, errTop1 (m + n) (m + n - k) (ne.getD i 0) :=
      Finset.sum_congr rfl (fun i _ => errTop2_symm _ _ _ hk hpos)
    rw [h1, h2, hs1, hs2]
    ring

/-- Witness for the amended C8 at a concrete in-band input. -/
theorem C8_swap_symmetry_witness :
    (1 = List.length [7] ∧ 1 = List.length [5] ∧ 1 ≤ 1 + 1 ∧
      1 - (0.99 : ℝ) ≤ 1 / 2 ∧ (1 / 2 : ℝ) ≤ 0.99) ∧
    calculate_ln 1 1 (1 + 1) [7] [5] (1 / 2) 1 0.99 =
      calculate_ln 1 1 (1 + 1) [5] [7] (1 - 1 / 2) (1 + 1 - 1) 0.99 :=
  ⟨⟨rfl, rfl, by omega, by norm_num, by norm_num⟩,
    C8_swap_symmetry 1 1 [7] [5] (1 / 2) 0.99 1 rfl rfl (by omega)
      (by norm_num) (by norm_num)⟩

end VariantStat
